import Mathlib

/-!
Shallow embedding of the project-workflow subsystem of the
`tp-management-backend` repository.

The embedded code lives in `src/services/workflow.service.ts` (class
`WorkflowService`) and in the second copy of that class shipped with the
server entry point (`src/unnamed/part_010`).  The two copies agree on
`createProjectWorkflow`, `updateWorkflowStep`, `validateStepCompletion`
and `updateProjectStatusIfNeeded`; they differ in `getProjectWorkflow`
(the server copy instantiates the workflow from templates on first read)
and in `getWorkflowProgress` (the server copy raises `NotFoundError` on an
empty workflow and computes an estimated completion date; the copy in
`src/services/workflow.service.ts` returns plain statistics).

Modelling conventions:
* the Prisma tables become explicit lists inside a `DB` record, in table
  order; `findUnique` is `List.find?`, `findMany` with a `where` clause is
  `List.filter`, `orderBy: stepSequence asc` is a stable insertion sort;
* JavaScript `Date` values are epoch milliseconds (`Int`); `new Date()`
  is an explicit `now : Int` parameter;
* JavaScript float arithmetic on percentages is exact here (`ℚ`), which
  matches the source for all the integer-valued data the service stores;
* a thrown `NotFoundError` / `ValidationError` becomes an `Except.error`
  result paired with the unchanged database (an exception aborts the
  request before any write of the aborted operation happens);
* `createMany` row ids come from a `nextId` counter in `DB`, standing in
  for Prisma's generated ids.
-/

/-- Status of one workflow step, enum `WorkflowStepStatus` in the schema. -/
inductive WorkflowStepStatus where
  | not_started
  | in_progress
  | completed
  | blocked
deriving DecidableEq, Repr

/-- Coarse project lifecycle stage, enum `ProjectStatus` in the schema. -/
inductive ProjectStatus where
  | NOT_STARTED
  | PLANNING
  | DATA_GATHERING
  | ANALYSIS
  | DRAFTING
  | INTERNAL_REVIEW
  | CLIENT_REVIEW
  | FINALIZATION
  | DELIVERED
  | ARCHIVED
  | ON_HOLD
  | WAITING_CLIENT
  | WAITING_THIRD_PARTY
  | REVISION_REQUIRED
deriving DecidableEq, Repr

/-- A row of the `workflow_templates` table (the fields the service reads). -/
structure WorkflowTemplate where
  id : String
  deliverableType : String
  stepSequence : Int
  stepName : String
deriving DecidableEq, Repr

/-- A row of the `project_workflow` table. -/
structure ProjectWorkflowStep where
  id : String
  projectId : String
  workflowTemplateId : String
  stepSequence : Int
  stepName : String
  status : WorkflowStepStatus
  completionPercentage : Int
  assignedTo : Option String
  startDate : Option Int
  dueDate : Option Int
  completionDate : Option Int
  notes : Option String
deriving DecidableEq, Repr

/-- A row of the `projects` table (the fields the workflow service touches). -/
structure Project where
  id : String
  deliverableType : String
  status : ProjectStatus
deriving DecidableEq, Repr

/-- The relational store seen by the workflow service. -/
structure DB where
  projects : List Project
  templates : List WorkflowTemplate
  steps : List ProjectWorkflowStep
  nextId : Nat
deriving DecidableEq, Repr

/-- The error taxonomy of `src/utils/errors.ts` used by the service. -/
inductive ApiError where
  | NotFoundError (msg : String)
  | ValidationError (msg : String)
deriving DecidableEq, Repr

/-- The partial-update object accepted by `updateWorkflowStep`; a `none`
field is `undefined` in the request and is skipped by the Prisma update. -/
structure StepPatch where
  status : Option WorkflowStepStatus := none
  assignedTo : Option String := none
  completionPercentage : Option Int := none
  notes : Option String := none
  startDate : Option Int := none
  dueDate : Option Int := none
deriving DecidableEq, Repr

/-- Prisma update semantics for one optional column: a supplied value
overwrites, an `undefined` one keeps the stored value. -/
def patchField {α : Type} (new : Option α) (old : Option α) : Option α :=
  match new with
  | some a => some a
  | none => old

/-- Applying a `StepPatch` to a stored row, field by field, exactly as the
object spread into `prisma.projectWorkflow.update` does. -/
def applyPatch (s : ProjectWorkflowStep) (p : StepPatch) : ProjectWorkflowStep :=
  { s with
    status := p.status.getD s.status
    assignedTo := patchField p.assignedTo s.assignedTo
    completionPercentage := p.completionPercentage.getD s.completionPercentage
    notes := patchField p.notes s.notes
    startDate := patchField p.startDate s.startDate
    dueDate := patchField p.dueDate s.dueDate }

/-- Model of `prisma.projectWorkflow.findUnique({ where: { id } })`. -/
def findUnique (l : List ProjectWorkflowStep) (sid : String) : Option ProjectWorkflowStep :=
  l.find? (fun t => t.id = sid)

/-- Model of `prisma.project.findUnique({ where: { id } })`. -/
def findProject (db : DB) (pid : String) : Option Project :=
  db.projects.find? (fun pr => pr.id = pid)

/-- Model of `prisma.projectWorkflow.findMany({ where: { projectId } })`. -/
def stepsOf (db : DB) (pid : String) : List ProjectWorkflowStep :=
  db.steps.filter (fun t => t.projectId = pid)

/-- Model of `prisma.workflowTemplate.findMany({ where: { deliverableType } })`. -/
def templatesOf (db : DB) (dt : String) : List WorkflowTemplate :=
  db.templates.filter (fun t => t.deliverableType = dt)

/-- Ordering of step rows by `stepSequence` (the `orderBy` clause). -/
def stepLe (a b : ProjectWorkflowStep) : Prop :=
  a.stepSequence ≤ b.stepSequence

instance : DecidableRel stepLe :=
  fun a b => inferInstanceAs (Decidable (a.stepSequence ≤ b.stepSequence))

instance : IsTotal ProjectWorkflowStep stepLe :=
  ⟨fun a b => Int.le_total a.stepSequence b.stepSequence⟩

instance : IsTrans ProjectWorkflowStep stepLe :=
  ⟨fun _ _ _ h h2 => Int.le_trans h h2⟩

/-- Ordering of template rows by `stepSequence` (the `orderBy` clause). -/
def tplLe (a b : WorkflowTemplate) : Prop :=
  a.stepSequence ≤ b.stepSequence

instance : DecidableRel tplLe :=
  fun a b => inferInstanceAs (Decidable (a.stepSequence ≤ b.stepSequence))

instance : IsTotal WorkflowTemplate tplLe :=
  ⟨fun a b => Int.le_total a.stepSequence b.stepSequence⟩

instance : IsTrans WorkflowTemplate tplLe :=
  ⟨fun _ _ _ h h2 => Int.le_trans h h2⟩

/-- Model of the ascending stepSequence orderBy clause on `project_workflow` rows. -/
def sortBySeq (l : List ProjectWorkflowStep) : List ProjectWorkflowStep :=
  List.insertionSort stepLe l

/-- Model of the ascending stepSequence orderBy clause on `workflow_templates` rows. -/
def sortTplBySeq (l : List WorkflowTemplate) : List WorkflowTemplate :=
  List.insertionSort tplLe l

/-- Model of JavaScript array join with a separator on a list of strings. -/
def joinSep (sep : String) : List String → String
  | [] => ""
  | [x] => x
  | x :: y :: t => x ++ sep ++ joinSep sep (y :: t)

/-- One day in JavaScript epoch milliseconds (`1000 * 60 * 60 * 24`). -/
def msPerDay : Int := 86400000

/-- Model of `Math.ceil(diff / msPerDay)` for an exact integer millisecond difference. -/
def ceilDivMs (diff : Int) : Int :=
  -((-diff).fdiv msPerDay)

/-- Model of `Math.round` on an exact rational (half rounds toward positive infinity). -/
def jsRound (q : ℚ) : Int :=
  ⌊q + 1 / 2⌋

/-- Model of `prisma.projectWorkflow.update({ where: { id }, data })`: replace the row
with the given unique id. -/
def replaceById (l : List ProjectWorkflowStep) (sid : String) (u : ProjectWorkflowStep) :
    List ProjectWorkflowStep :=
  l.map (fun t => if t.id = sid then u else t)

/-- The inner queries of `WorkflowService.validateStepCompletion`: the steps of
the project with a strictly smaller `stepSequence` than `cur` whose status is
not `completed`. -/
def incompleteSteps (db : DB) (pid : String) (cur : ProjectWorkflowStep) :
    List ProjectWorkflowStep :=
  (db.steps.filter
      (fun t => decide (t.projectId = pid ∧ t.stepSequence < cur.stepSequence))).filter
    (fun t => decide (¬ t.status = WorkflowStepStatus.completed))

/-- The `ValidationError` message built by `validateStepCompletion`. -/
def valMsg (names : List String) : String :=
  "Cannot complete this step. Previous steps must be completed first: " ++ joinSep ", " names

/-- Embedding of `WorkflowService.validateStepCompletion` (identical in both copies of the
service): re-fetch the step, collect the incomplete strictly-earlier steps of
the project, and fail with a `ValidationError` naming them if any exist. -/
def validateStepCompletion (db : DB) (sid : String) (pid : String) : Except ApiError Unit :=
  match findUnique db.steps sid with
  | none => Except.error (ApiError.NotFoundError "Workflow step not found")
  | some cur =>
    let incomplete := incompleteSteps db pid cur
    if incomplete.length > 0 then
      Except.error (ApiError.ValidationError (valMsg (incomplete.map (fun t => t.stepName))))
    else
      Except.ok ()

/-- Model of `prisma.project.update({ where: { id: pid }, data: { status } })`. -/
def setProjectStatus (db : DB) (pid : String) (st : ProjectStatus) : DB :=
  { db with
    projects := db.projects.map (fun pr => if pr.id = pid then { pr with status := st } else pr) }

/-- Embedding of `WorkflowService.updateProjectStatusIfNeeded` (identical in both copies):
if every step of the project is completed set the project status to
`DELIVERED`, otherwise band the average completion percentage. -/
def updateProjectStatusIfNeeded (db : DB) (pid : String) : DB :=
  let workflow := stepsOf db pid
  let allCompleted := workflow.all (fun t => decide (t.status = WorkflowStepStatus.completed))
  if allCompleted then
    setProjectStatus db pid ProjectStatus.DELIVERED
  else
    let totalPercentage : Int := (workflow.map (fun t => t.completionPercentage)).sum
    let avgCompletion : ℚ := (totalPercentage : ℚ) / (workflow.length : ℚ)
    let newStatus : ProjectStatus :=
      if avgCompletion ≥ 75 then ProjectStatus.FINALIZATION
      else if avgCompletion ≥ 50 then ProjectStatus.INTERNAL_REVIEW
      else if avgCompletion ≥ 25 then ProjectStatus.DRAFTING
      else if avgCompletion > 0 then ProjectStatus.ANALYSIS
      else ProjectStatus.PLANNING
    setProjectStatus db pid newStatus

/-- Embedding of `WorkflowService.updateWorkflowStep` (identical in both copies): fetch the
step, run the prerequisite validation and the derived effects of the
`completed` / first `in_progress` transitions, and persist the patch. -/
def updateWorkflowStep (db : DB) (now : Int) (sid : String) (p : StepPatch) :
    Except ApiError ProjectWorkflowStep × DB :=
  match findUnique db.steps sid with
  | none => (Except.error (ApiError.NotFoundError "Workflow step not found"), db)
  | some step =>
    if p.status = some WorkflowStepStatus.completed then
      match validateStepCompletion db sid step.projectId with
      | Except.error e => (Except.error e, db)
      | Except.ok _ =>
        let d := { p with completionPercentage := some 100 }
        let u := { applyPatch step d with completionDate := some now }
        let db1 := { db with steps := replaceById db.steps sid u }
        (Except.ok u, updateProjectStatusIfNeeded db1 step.projectId)
    else if p.status = some WorkflowStepStatus.in_progress ∧ step.startDate = none then
      let u := { applyPatch step p with startDate := some now }
      (Except.ok u, { db with steps := replaceById db.steps sid u })
    else
      let u := applyPatch step p
      (Except.ok u, { db with steps := replaceById db.steps sid u })

/-- One `createMany` row of the instantiation paths: a fresh step instance for
one template, initialized exactly as both instantiation sites do. -/
def stepOfTemplate (pid : String) (rowId : Nat) (t : WorkflowTemplate) : ProjectWorkflowStep :=
  { id := "step" ++ toString rowId
    projectId := pid
    workflowTemplateId := t.id
    stepSequence := t.stepSequence
    stepName := t.stepName
    status := WorkflowStepStatus.not_started
    completionPercentage := 0
    assignedTo := none
    startDate := none
    dueDate := none
    completionDate := none
    notes := none }

/-- The `templates.map(template => ({...}))` payload of both `createMany`
calls, with generated row ids. -/
def instantiateSteps (pid : String) (base : Nat) : List WorkflowTemplate → List ProjectWorkflowStep
  | [] => []
  | t :: ts => stepOfTemplate pid base t :: instantiateSteps pid (base + 1) ts

/-- Embedding of `WorkflowService.createProjectWorkflow` (identical in both copies): on an
empty template list it logs a warning and returns without error; otherwise it
bulk-creates one step per template.  It never reads the `projects` table. -/
def createProjectWorkflow (db : DB) (pid : String) (deliverableType : String) :
    Except ApiError Unit × DB :=
  let templates := sortTplBySeq (templatesOf db deliverableType)
  if templates.isEmpty then
    (Except.ok (), db)
  else
    (Except.ok (),
      { db with
        steps := db.steps ++ instantiateSteps pid db.nextId templates
        nextId := db.nextId + templates.length })

/-- Embedding of `WorkflowService.getProjectWorkflow` of the server copy (part_010): fail
with `NotFoundError` if the project is missing; return the existing steps in
sequence order; if none exist yet, instantiate them from the templates of the
project's deliverable type, failing with `NotFoundError` when that template
list is empty. -/
def getProjectWorkflow (db : DB) (pid : String) :
    Except ApiError (List ProjectWorkflowStep) × DB :=
  match findProject db pid with
  | none => (Except.error (ApiError.NotFoundError "Project not found"), db)
  | some project =>
    let workflow := sortBySeq (stepsOf db pid)
    if workflow.isEmpty then
      let templates := sortTplBySeq (templatesOf db project.deliverableType)
      if templates.isEmpty then
        (Except.error
            (ApiError.NotFoundError
              ("No workflow templates found for deliverable type: " ++ project.deliverableType)),
          db)
      else
        let db1 : DB :=
          { db with
            steps := db.steps ++ instantiateSteps pid db.nextId templates
            nextId := db.nextId + templates.length }
        (Except.ok (sortBySeq (stepsOf db1 pid)), db1)
    else
      (Except.ok workflow, db)

/-- The progress summary returned by the server copy's `getWorkflowProgress`. -/
structure WorkflowProgress where
  totalSteps : Nat
  completedSteps : Nat
  inProgressSteps : Nat
  notStartedSteps : Nat
  blockedSteps : Nat
  percentComplete : Int
  estimatedCompletionDate : Option Int
  isOnTrack : Bool
deriving DecidableEq, Repr

/-- Embedding of `WorkflowService.getWorkflowProgress` of the server copy (part_010):
`NotFoundError` on an empty workflow, per-status counts, rounded completion
rate, and the estimated-completion heuristic driven by the first `in_progress`
step in sequence order. -/
def getWorkflowProgress (db : DB) (now : Int) (pid : String) :
    Except ApiError WorkflowProgress :=
  let workflow := sortBySeq (stepsOf db pid)
  if workflow.isEmpty then
    Except.error (ApiError.NotFoundError "Workflow not found for this project")
  else
    let totalSteps := workflow.length
    let completedSteps :=
      (workflow.filter (fun s => decide (s.status = WorkflowStepStatus.completed))).length
    let inProgressSteps :=
      (workflow.filter (fun s => decide (s.status = WorkflowStepStatus.in_progress))).length
    let notStartedSteps :=
      (workflow.filter (fun s => decide (s.status = WorkflowStepStatus.not_started))).length
    let blockedSteps :=
      (workflow.filter (fun s => decide (s.status = WorkflowStepStatus.blocked))).length
    let percentComplete : Int :=
      if totalSteps > 0 then jsRound (((completedSteps : ℚ) / (totalSteps : ℚ)) * 100) else 0
    let inProgressStep :=
      workflow.find? (fun s => decide (s.status = WorkflowStepStatus.in_progress))
    let estPair : Option Int × Bool :=
      match inProgressStep with
      | none => (none, true)
      | some st =>
        match st.startDate with
        | none => (none, true)
        | some start =>
          match st.dueDate with
          | none => (none, true)
          | some due =>
            let estimatedDays := max 0 (ceilDivMs (due - start))
            let estimatedEnd := start + estimatedDays * msPerDay
            let daysElapsed := (now - start).fdiv msPerDay
            let onTrack := decide (daysElapsed ≤ estimatedDays)
            let remainingDays :=
              ((workflow.filter (fun s => decide (st.stepSequence < s.stepSequence))).map
                  (fun s =>
                    match s.startDate, s.dueDate with
                    | some a, some b => max 0 (ceilDivMs (b - a))
                    | _, _ => 0)).sum
            (some (estimatedEnd + remainingDays * msPerDay), onTrack)
    Except.ok
      { totalSteps := totalSteps
        completedSteps := completedSteps
        inProgressSteps := inProgressSteps
        notStartedSteps := notStartedSteps
        blockedSteps := blockedSteps
        percentComplete := percentComplete
        estimatedCompletionDate := estPair.1
        isOnTrack := estPair.2 }

/-- The statistics object returned by `getWorkflowProgress` in
`src/services/workflow.service.ts` (the copy without the `NotFoundError`
guard). -/
structure WorkflowStats where
  totalSteps : Nat
  completedSteps : Nat
  inProgressSteps : Nat
  overallCompletion : Int
  completionRate : ℚ
deriving DecidableEq, Repr

/-- Embedding of `WorkflowService.getWorkflowProgress` of `src/services/workflow.service.ts`:
plain statistics, returned for every project, with no empty-workflow error. -/
def getWorkflowProgressSrc (db : DB) (pid : String) : WorkflowStats :=
  let workflow := stepsOf db pid
  let totalSteps := workflow.length
  let completedSteps :=
    (workflow.filter (fun s => decide (s.status = WorkflowStepStatus.completed))).length
  let inProgressSteps :=
    (workflow.filter (fun s => decide (s.status = WorkflowStepStatus.in_progress))).length
  let totalPercentage : Int := (workflow.map (fun t => t.completionPercentage)).sum
  let overallCompletion : ℚ :=
    if totalSteps > 0 then (totalPercentage : ℚ) / (totalSteps : ℚ) else 0
  { totalSteps := totalSteps
    completedSteps := completedSteps
    inProgressSteps := inProgressSteps
    overallCompletion := jsRound overallCompletion
    completionRate :=
      if totalSteps > 0 then ((completedSteps : ℚ) / (totalSteps : ℚ)) * 100 else 0 }

/-! Concrete sample data, used to witness the theorems below.  The rows mirror
the seeded "Local File" workflow of the repository's seed script. -/

/-- Sample template row 1. -/
def tpl1 : WorkflowTemplate :=
  { id := "t1", deliverableType := "LOCAL_FILE", stepSequence := 1, stepName := "Data Collection" }

/-- Sample template row 2. -/
def tpl2 : WorkflowTemplate :=
  { id := "t2", deliverableType := "LOCAL_FILE", stepSequence := 2, stepName := "Analysis" }

/-- Sample template row 3. -/
def tpl3 : WorkflowTemplate :=
  { id := "t3", deliverableType := "LOCAL_FILE", stepSequence := 3, stepName := "Draft" }

/-- Sample project row. -/
def projA : Project :=
  { id := "p1", deliverableType := "LOCAL_FILE", status := ProjectStatus.PLANNING }

/-- Sample step row: sequence 1, completed. -/
def stepA : ProjectWorkflowStep :=
  { id := "s1", projectId := "p1", workflowTemplateId := "t1", stepSequence := 1
    stepName := "Data Collection", status := WorkflowStepStatus.completed
    completionPercentage := 100, assignedTo := none, startDate := some 0
    dueDate := some (4 * 86400000), completionDate := some (3 * 86400000), notes := none }

/-- Sample step row: sequence 2, in progress with a start and a due date. -/
def stepB : ProjectWorkflowStep :=
  { id := "s2", projectId := "p1", workflowTemplateId := "t2", stepSequence := 2
    stepName := "Analysis", status := WorkflowStepStatus.in_progress
    completionPercentage := 50, assignedTo := none, startDate := some 0
    dueDate := some (5 * 86400000), completionDate := none, notes := none }

/-- Sample step row: sequence 3, not started, with planned dates. -/
def stepC : ProjectWorkflowStep :=
  { id := "s3", projectId := "p1", workflowTemplateId := "t3", stepSequence := 3
    stepName := "Draft", status := WorkflowStepStatus.not_started
    completionPercentage := 0, assignedTo := none, startDate := some (5 * 86400000)
    dueDate := some (8 * 86400000), completionDate := none, notes := none }

/-- Sample database with an instantiated three-step workflow. -/
def dbMain : DB :=
  { projects := [projA], templates := [tpl1, tpl2, tpl3], steps := [stepA, stepB, stepC]
    nextId := 0 }

/-- Sample database whose project has no step instances yet. -/
def dbFresh : DB :=
  { projects := [projA], templates := [tpl1, tpl2, tpl3], steps := [], nextId := 0 }

/-- Sample database with a project but no workflow templates at all. -/
def dbNoTpl : DB :=
  { projects := [projA], templates := [], steps := [], nextId := 0 }

/-! Helper lemmas. -/

/-- Every element of a joined list of strings occurs verbatim in the join. -/
theorem joinSep_split (sep : String) (names : List String) (n : String) (h : n ∈ names) :
    ∃ a b, joinSep sep names = a ++ n ++ b := by
  induction names with
  | nil => cases h
  | cons x xs ih =>
    cases xs with
    | nil =>
      rcases List.mem_singleton.mp h with rfl
      exact ⟨"", "", by simp [joinSep, String.append_empty, String.empty_append]⟩
    | cons y t =>
      rcases List.mem_cons.mp h with rfl | hmem
      · refine ⟨"", sep ++ joinSep sep (y :: t), ?_⟩
        simp only [joinSep, String.empty_append, String.append_assoc]
      · rcases ih hmem with ⟨a, b, hab⟩
        refine ⟨x ++ sep ++ a, b, ?_⟩
        simp only [joinSep, hab, String.append_assoc]

/-- Every listed step name occurs verbatim in the validation message. -/
theorem valMsg_split (names : List String) (n : String) (h : n ∈ names) :
    ∃ a b, valMsg names = a ++ n ++ b := by
  rcases joinSep_split ", " names n h with ⟨a, b, hab⟩
  exact ⟨"Cannot complete this step. Previous steps must be completed first: " ++ a, b, by
    simp only [valMsg, hab, String.append_assoc]⟩

/-- The list `incompleteSteps` is empty exactly when every strictly earlier step of the
project is completed. -/
theorem incompleteSteps_eq_nil_iff (db : DB) (pid : String) (cur : ProjectWorkflowStep) :
    incompleteSteps db pid cur = [] ↔
      ∀ t ∈ db.steps, t.projectId = pid → t.stepSequence < cur.stepSequence →
        t.status = WorkflowStepStatus.completed := by
  constructor
  · intro h t ht h1 h2
    by_contra hc
    have hmem : t ∈ incompleteSteps db pid cur := by
      simp only [incompleteSteps, List.mem_filter, decide_eq_true_eq]
      exact ⟨⟨ht, h1, h2⟩, hc⟩
    rw [h] at hmem
    cases hmem
  · intro h
    rcases hq : incompleteSteps db pid cur with _ | ⟨t, rest⟩
    · rfl
    · exfalso
      have hmem : t ∈ incompleteSteps db pid cur := by
        rw [hq]; exact List.mem_cons_self t rest
      simp only [incompleteSteps, List.mem_filter, decide_eq_true_eq] at hmem
      exact hmem.2 (h t hmem.1.1 hmem.1.2.1 hmem.1.2.2)

/-- Reduction of `validateStepCompletion` when prerequisites are missing. -/
theorem validateStepCompletion_error (db : DB) (sid : String) (pid : String)
    (s : ProjectWorkflowStep) (hfind : findUnique db.steps sid = some s)
    (hne : incompleteSteps db pid s ≠ []) :
    validateStepCompletion db sid pid =
      Except.error (ApiError.ValidationError
        (valMsg ((incompleteSteps db pid s).map (fun t => t.stepName)))) := by
  have hlen : (incompleteSteps db pid s).length > 0 := List.length_pos.mpr hne
  simp only [validateStepCompletion, hfind]
  rw [if_pos hlen]

/-- Reduction of `validateStepCompletion` when all prerequisites are met. -/
theorem validateStepCompletion_ok (db : DB) (sid : String) (pid : String)
    (s : ProjectWorkflowStep) (hfind : findUnique db.steps sid = some s)
    (hemp : incompleteSteps db pid s = []) :
    validateStepCompletion db sid pid = Except.ok () := by
  simp [validateStepCompletion, hfind, hemp]

/-- Reduction of `updateWorkflowStep` on the failing completed path. -/
theorem updateWorkflowStep_valfail (db : DB) (now : Int) (sid : String) (p : StepPatch)
    (s : ProjectWorkflowStep) (hfind : findUnique db.steps sid = some s)
    (hstat : p.status = some WorkflowStepStatus.completed)
    (hne : incompleteSteps db s.projectId s ≠ []) :
    updateWorkflowStep db now sid p =
      (Except.error (ApiError.ValidationError
        (valMsg ((incompleteSteps db s.projectId s).map (fun t => t.stepName)))), db) := by
  simp only [updateWorkflowStep, hfind, hstat,
    validateStepCompletion_error db sid s.projectId s hfind hne, reduceIte]

/-- Reduction of `updateWorkflowStep` on the successful completed path. -/
theorem updateWorkflowStep_completed (db : DB) (now : Int) (sid : String) (p : StepPatch)
    (s : ProjectWorkflowStep) (hfind : findUnique db.steps sid = some s)
    (hstat : p.status = some WorkflowStepStatus.completed)
    (hemp : incompleteSteps db s.projectId s = []) :
    updateWorkflowStep db now sid p =
      (Except.ok
          { applyPatch s { p with completionPercentage := some 100 } with
            completionDate := some now },
        updateProjectStatusIfNeeded
          { db with
            steps := replaceById db.steps sid
              { applyPatch s { p with completionPercentage := some 100 } with
                completionDate := some now } }
          s.projectId) := by
  simp only [updateWorkflowStep, hfind, hstat,
    validateStepCompletion_ok db sid s.projectId s hfind hemp, reduceIte]

/-- When every step of the project is completed the projector sets `DELIVERED`. -/
theorem updateProjectStatusIfNeeded_allCompleted (db : DB) (pid : String)
    (h : ∀ t ∈ stepsOf db pid, t.status = WorkflowStepStatus.completed) :
    updateProjectStatusIfNeeded db pid = setProjectStatus db pid ProjectStatus.DELIVERED := by
  have hall : (stepsOf db pid).all
      (fun t => decide (t.status = WorkflowStepStatus.completed)) = true := by
    simp only [List.all_eq_true, decide_eq_true_eq]
    exact h
  simp only [updateProjectStatusIfNeeded, hall, if_true]

/-- A project row matching the updated id carries the written status. -/
theorem setProjectStatus_mem (db : DB) (pid : String) (st : ProjectStatus) (pr : Project)
    (h : pr ∈ (setProjectStatus db pid st).projects) (hid : pr.id = pid) : pr.status = st := by
  simp only [setProjectStatus, List.mem_map] at h
  rcases h with ⟨q, _, hpr⟩
  by_cases hqid : q.id = pid
  · rw [if_pos hqid] at hpr
    rw [← hpr]
  · rw [if_neg hqid] at hpr
    rw [← hpr] at hid
    exact absurd hid hqid

/-- After replacing the updated row with a completed one, a project whose other
steps were all completed has only completed steps. -/
theorem stepsOf_replace_completed (db : DB) (sid : String) (pid : String)
    (u : ProjectWorkflowStep) (hu : u.status = WorkflowStepStatus.completed)
    (h : ∀ t ∈ db.steps, t.projectId = pid → t.id ≠ sid →
      t.status = WorkflowStepStatus.completed) :
    ∀ t ∈ stepsOf { db with steps := replaceById db.steps sid u } pid,
      t.status = WorkflowStepStatus.completed := by
  intro t ht
  have ht2 := List.mem_filter.mp ht
  rcases List.mem_map.mp ht2.1 with ⟨orig, horig, hor⟩
  by_cases hoid : orig.id = sid
  · rw [if_pos hoid] at hor
    rw [← hor]
    exact hu
  · rw [if_neg hoid] at hor
    subst hor
    exact h orig horig (by simpa using ht2.2) hoid

/-- C1: for an existing step, patching status to `completed` while some step of
the same project with a strictly smaller `stepSequence` is not completed fails
with a `ValidationError` whose message names each such incomplete prerequisite
step, leaving the database (the step and all siblings) unchanged; when all
strictly-smaller-sequence steps are completed no `ValidationError` is raised. -/
theorem claim_C1_prerequisite_validation
    (db : DB) (now : Int) (sid : String) (p : StepPatch) (s : ProjectWorkflowStep)
    (hfind : findUnique db.steps sid = some s)
    (hstat : p.status = some WorkflowStepStatus.completed) :
    ((∃ t ∈ db.steps, t.projectId = s.projectId ∧ t.stepSequence < s.stepSequence ∧
        t.status ≠ WorkflowStepStatus.completed) →
      ∃ msg,
        updateWorkflowStep db now sid p = (Except.error (ApiError.ValidationError msg), db) ∧
        ∀ t ∈ db.steps, t.projectId = s.projectId → t.stepSequence < s.stepSequence →
          t.status ≠ WorkflowStepStatus.completed → ∃ a b, msg = a ++ t.stepName ++ b)
    ∧ ((∀ t ∈ db.steps, t.projectId = s.projectId → t.stepSequence < s.stepSequence →
        t.status = WorkflowStepStatus.completed) →
      ∀ e, (updateWorkflowStep db now sid p).1 ≠ Except.error (ApiError.ValidationError e)) := by
  constructor
  · rintro ⟨t0, ht0, h1, h2, h3⟩
    have hne : incompleteSteps db s.projectId s ≠ [] := by
      intro hnil
      exact h3 ((incompleteSteps_eq_nil_iff db s.projectId s).mp hnil t0 ht0 h1 h2)
    refine ⟨valMsg ((incompleteSteps db s.projectId s).map (fun t => t.stepName)),
      updateWorkflowStep_valfail db now sid p s hfind hstat hne, ?_⟩
    intro t ht hp hseq hnc
    apply valMsg_split
    apply List.mem_map_of_mem
    simp only [incompleteSteps, List.mem_filter, decide_eq_true_eq]
    exact ⟨⟨ht, hp, hseq⟩, hnc⟩
  · intro hall e
    have hemp : incompleteSteps db s.projectId s = [] :=
      (incompleteSteps_eq_nil_iff db s.projectId s).mpr hall
    rw [updateWorkflowStep_completed db now sid p s hfind hstat hemp]
    simp

/-- Witness for C1: completing step "s3" of the sample database while step
"s2" is still in progress raises the validation error naming it. -/
theorem claim_C1_prerequisite_validation_witness :
    ∃ msg,
      updateWorkflowStep dbMain 0 "s3" { status := some WorkflowStepStatus.completed } =
        (Except.error (ApiError.ValidationError msg), dbMain) ∧
      ∀ t ∈ dbMain.steps, t.projectId = stepC.projectId → t.stepSequence < stepC.stepSequence →
        t.status ≠ WorkflowStepStatus.completed → ∃ a b, msg = a ++ t.stepName ++ b :=
  (claim_C1_prerequisite_validation dbMain 0 "s3"
      { status := some WorkflowStepStatus.completed } stepC (by decide) rfl).1
    ⟨stepB, by decide, by decide, by decide, by decide⟩

/-- C2: completing an existing step whose strictly earlier siblings are all
completed persists the patch with `completionPercentage` forced to 100
(overriding the patched value) and `completionDate` stamped with the current
time, returns the updated step, and re-runs the project status projector on
the owning project; if the other steps of the project were completed as well,
the project row ends up `DELIVERED`. -/
theorem claim_C2_completion_effects
    (db : DB) (now : Int) (sid : String) (p : StepPatch) (s : ProjectWorkflowStep)
    (hfind : findUnique db.steps sid = some s)
    (hstat : p.status = some WorkflowStepStatus.completed)
    (hpre : ∀ t ∈ db.steps, t.projectId = s.projectId → t.stepSequence < s.stepSequence →
      t.status = WorkflowStepStatus.completed) :
    ∃ u,
      updateWorkflowStep db now sid p =
        (Except.ok u,
          updateProjectStatusIfNeeded { db with steps := replaceById db.steps sid u }
            s.projectId) ∧
      u = { applyPatch s { p with completionPercentage := some 100 } with
            completionDate := some now } ∧
      u.completionPercentage = 100 ∧
      u.completionDate = some now ∧
      u.status = WorkflowStepStatus.completed ∧
      ((∀ t ∈ db.steps, t.projectId = s.projectId → t.id ≠ sid →
          t.status = WorkflowStepStatus.completed) →
        ∀ pr ∈ (updateWorkflowStep db now sid p).2.projects, pr.id = s.projectId →
          pr.status = ProjectStatus.DELIVERED) := by
  have hemp : incompleteSteps db s.projectId s = [] :=
    (incompleteSteps_eq_nil_iff db s.projectId s).mpr hpre
  have hmain := updateWorkflowStep_completed db now sid p s hfind hstat hemp
  refine ⟨_, hmain, rfl, by simp [applyPatch], rfl, by simp [applyPatch, hstat], ?_⟩
  intro hothers pr hpr hid
  rw [hmain] at hpr
  have hall := stepsOf_replace_completed db sid s.projectId
    { applyPatch s { p with completionPercentage := some 100 } with completionDate := some now }
    (by simp [applyPatch, hstat]) hothers
  rw [updateProjectStatusIfNeeded_allCompleted _ _ hall] at hpr
  exact setProjectStatus_mem _ _ _ _ hpr hid

/-- Witness for C2: completing step "s2" of the sample database (its only
earlier sibling "s1" is completed) with a conflicting percentage in the
patch. -/
theorem claim_C2_completion_effects_witness :
    ∃ u,
      updateWorkflowStep dbMain 432000000 "s2"
          { status := some WorkflowStepStatus.completed, completionPercentage := some 37 } =
        (Except.ok u,
          updateProjectStatusIfNeeded
            { dbMain with steps := replaceById dbMain.steps "s2" u } stepB.projectId) ∧
      u = { applyPatch stepB
              { status := some WorkflowStepStatus.completed, completionPercentage := some 100 }
            with completionDate := some 432000000 } ∧
      u.completionPercentage = 100 ∧
      u.completionDate = some 432000000 ∧
      u.status = WorkflowStepStatus.completed ∧
      ((∀ t ∈ dbMain.steps, t.projectId = stepB.projectId → t.id ≠ "s2" →
          t.status = WorkflowStepStatus.completed) →
        ∀ pr ∈ (updateWorkflowStep dbMain 432000000 "s2"
            { status := some WorkflowStepStatus.completed,
              completionPercentage := some 37 }).2.projects,
          pr.id = stepB.projectId → pr.status = ProjectStatus.DELIVERED) :=
  claim_C2_completion_effects dbMain 432000000 "s2"
    { status := some WorkflowStepStatus.completed, completionPercentage := some 37 } stepB
    (by decide) rfl (by decide)

/-- Reduction of `updateWorkflowStep` on the first `in_progress` transition. -/
theorem updateWorkflowStep_inprogress (db : DB) (now : Int) (sid : String) (p : StepPatch)
    (s : ProjectWorkflowStep) (hfind : findUnique db.steps sid = some s)
    (h2 : p.status = some WorkflowStepStatus.in_progress ∧ s.startDate = none) :
    updateWorkflowStep db now sid p =
      (Except.ok { applyPatch s p with startDate := some now },
        { db with steps := replaceById db.steps sid { applyPatch s p with
            startDate := some now } }) := by
  have hnc : ¬ p.status = some WorkflowStepStatus.completed := by
    rw [h2.1]; simp
  simp only [updateWorkflowStep, hfind]
  rw [if_neg hnc, if_pos h2]

/-- Reduction of `updateWorkflowStep` on the plain patch path. -/
theorem updateWorkflowStep_plain (db : DB) (now : Int) (sid : String) (p : StepPatch)
    (s : ProjectWorkflowStep) (hfind : findUnique db.steps sid = some s)
    (hnc : ¬ p.status = some WorkflowStepStatus.completed)
    (hni : ¬ (p.status = some WorkflowStepStatus.in_progress ∧ s.startDate = none)) :
    updateWorkflowStep db now sid p =
      (Except.ok (applyPatch s p),
        { db with steps := replaceById db.steps sid (applyPatch s p) }) := by
  simp only [updateWorkflowStep, hfind]
  rw [if_neg hnc, if_neg hni]

/-- The projector never touches the `project_workflow` table. -/
theorem updateProjectStatusIfNeeded_steps (db : DB) (pid : String) :
    (updateProjectStatusIfNeeded db pid).steps = db.steps := by
  simp only [updateProjectStatusIfNeeded, setProjectStatus]
  split <;> rfl

/-- A row of the updated table with a different id was already in the table. -/
theorem replaceById_mem (l : List ProjectWorkflowStep) (sid : String)
    (t : ProjectWorkflowStep) (u : ProjectWorkflowStep)
    (ht : t ∈ replaceById l sid u) (hu : u.id = sid) (hne : t.id ≠ sid) : t ∈ l := by
  rcases List.mem_map.mp ht with ⟨orig, horig, hor⟩
  by_cases ho : orig.id = sid
  · rw [if_pos ho] at hor
    subst hor
    exact absurd hu hne
  · rw [if_neg ho] at hor
    subst hor
    exact horig

/-- The found step carries the queried id. -/
theorem findUnique_id (l : List ProjectWorkflowStep) (sid : String) (s : ProjectWorkflowStep)
    (h : findUnique l sid = some s) : s.id = sid := by
  have := List.find?_some h
  simpa using this

/-- The patched row keeps the row id. -/
theorem applyPatch_id (s : ProjectWorkflowStep) (p : StepPatch) : (applyPatch s p).id = s.id :=
  rfl

/-- No `updateWorkflowStep` call ever writes a step row other than the one
addressed by `sid`. -/
theorem updateWorkflowStep_sibling_frame (db : DB) (now : Int) (sid : String) (p : StepPatch) :
    ∀ t ∈ (updateWorkflowStep db now sid p).2.steps, t.id ≠ sid → t ∈ db.steps := by
  intro t ht hne
  rcases hf : findUnique db.steps sid with _ | s
  · simp only [updateWorkflowStep, hf] at ht
    exact ht
  · have hsid : s.id = sid := findUnique_id db.steps sid s hf
    simp only [updateWorkflowStep, hf] at ht
    by_cases h1 : p.status = some WorkflowStepStatus.completed
    · rw [if_pos h1] at ht
      rcases hv : validateStepCompletion db sid s.projectId with e | un
      · rw [hv] at ht
        exact ht
      · rw [hv] at ht
        rw [updateProjectStatusIfNeeded_steps] at ht
        exact replaceById_mem db.steps sid t _ ht hsid hne
    · rw [if_neg h1] at ht
      by_cases h2 : p.status = some WorkflowStepStatus.in_progress ∧ s.startDate = none
      · rw [if_pos h2] at ht
        exact replaceById_mem db.steps sid t _ ht hsid hne
      · rw [if_neg h2] at ht
        exact replaceById_mem db.steps sid t _ ht hsid hne

/-- A call whose patch status is not `completed` never writes the `projects`
table. -/
theorem updateWorkflowStep_project_frame (db : DB) (now : Int) (sid : String) (p : StepPatch)
    (hq : ¬ p.status = some WorkflowStepStatus.completed) :
    (updateWorkflowStep db now sid p).2.projects = db.projects := by
  rcases hf : findUnique db.steps sid with _ | s
  · simp [updateWorkflowStep, hf]
  · simp only [updateWorkflowStep, hf]
    rw [if_neg hq]
    by_cases h2 : p.status = some WorkflowStepStatus.in_progress ∧ s.startDate = none
    · rw [if_pos h2]
    · rw [if_neg h2]

/-- C9: for an existing step and a patch whose status is neither `completed`
nor a first `in_progress` transition, exactly the patch fields are applied
with no derived side effects; no call modifies a sibling step row, and the
`projects` table is only written by the completed-status path. -/
theorem claim_C9_frame_property
    (db : DB) (now : Int) (sid : String) (p : StepPatch) (s : ProjectWorkflowStep)
    (hfind : findUnique db.steps sid = some s)
    (hnc : ¬ p.status = some WorkflowStepStatus.completed)
    (hni : ¬ (p.status = some WorkflowStepStatus.in_progress ∧ s.startDate = none)) :
    updateWorkflowStep db now sid p =
      (Except.ok (applyPatch s p),
        { db with steps := replaceById db.steps sid (applyPatch s p) })
    ∧ (∀ (db2 : DB) (now2 : Int) (q : StepPatch) (t : ProjectWorkflowStep),
        t ∈ (updateWorkflowStep db2 now2 sid q).2.steps → t.id ≠ sid → t ∈ db2.steps)
    ∧ (∀ (db2 : DB) (now2 : Int) (q : StepPatch),
        ¬ q.status = some WorkflowStepStatus.completed →
        (updateWorkflowStep db2 now2 sid q).2.projects = db2.projects) :=
  ⟨updateWorkflowStep_plain db now sid p s hfind hnc hni,
    fun db2 now2 q t ht hne => updateWorkflowStep_sibling_frame db2 now2 sid q t ht hne,
    fun db2 now2 q hq => updateWorkflowStep_project_frame db2 now2 sid q hq⟩

/-- Witness for C9: patching only the notes of step "s3" of the sample
database applies exactly that field. -/
theorem claim_C9_frame_property_witness :
    updateWorkflowStep dbMain 0 "s3" { notes := some "ok" } =
      (Except.ok (applyPatch stepC { notes := some "ok" }),
        { dbMain with
          steps := replaceById dbMain.steps "s3" (applyPatch stepC { notes := some "ok" }) })
    ∧ (∀ (db2 : DB) (now2 : Int) (q : StepPatch) (t : ProjectWorkflowStep),
        t ∈ (updateWorkflowStep db2 now2 "s3" q).2.steps → t.id ≠ "s3" → t ∈ db2.steps)
    ∧ (∀ (db2 : DB) (now2 : Int) (q : StepPatch),
        ¬ q.status = some WorkflowStepStatus.completed →
        (updateWorkflowStep db2 now2 "s3" q).2.projects = db2.projects) :=
  claim_C9_frame_property dbMain 0 "s3" { notes := some "ok" } stepC (by decide)
    (by simp) (by simp)

/-- C10: `updateWorkflowStep` never inspects the current status of the patched
step to accept or reject a patch: the only error outcomes are `NotFoundError`
for an absent id and `ValidationError` for a completed-status patch with an
incomplete earlier sibling; whenever the prerequisites are met a
completed-status patch succeeds — whatever the step's current status — with a
fresh `completionDate` and a re-run of the project status projector. -/
theorem claim_C10_status_agnostic_accept
    (db : DB) (now : Int) (sid : String) (p : StepPatch) :
    (findUnique db.steps sid = none →
      updateWorkflowStep db now sid p =
        (Except.error (ApiError.NotFoundError "Workflow step not found"), db))
    ∧ (∀ s, findUnique db.steps sid = some s →
        ((p.status = some WorkflowStepStatus.completed ∧
            incompleteSteps db s.projectId s ≠ []) →
          (updateWorkflowStep db now sid p).2 = db ∧
          ∃ m, (updateWorkflowStep db now sid p).1 = Except.error (ApiError.ValidationError m))
        ∧ ((p.status = some WorkflowStepStatus.completed → incompleteSteps db s.projectId s = []) →
          ∃ u, (updateWorkflowStep db now sid p).1 = Except.ok u)
        ∧ (p.status = some WorkflowStepStatus.completed →
            incompleteSteps db s.projectId s = [] →
          ∃ u,
            updateWorkflowStep db now sid p =
              (Except.ok u,
                updateProjectStatusIfNeeded
                  { db with steps := replaceById db.steps sid u } s.projectId) ∧
            u.completionDate = some now ∧ u.status = WorkflowStepStatus.completed)) := by
  refine ⟨?_, ?_⟩
  · intro hf
    simp [updateWorkflowStep, hf]
  · intro s hf
    refine ⟨?_, ?_, ?_⟩
    · rintro ⟨hstat, hneq⟩
      rw [updateWorkflowStep_valfail db now sid p s hf hstat hneq]
      exact ⟨rfl, _, rfl⟩
    · intro himp
      by_cases hstat : p.status = some WorkflowStepStatus.completed
      · rw [updateWorkflowStep_completed db now sid p s hf hstat (himp hstat)]
        exact ⟨_, rfl⟩
      · by_cases h2 : p.status = some WorkflowStepStatus.in_progress ∧ s.startDate = none
        · rw [updateWorkflowStep_inprogress db now sid p s hf h2]
          exact ⟨_, rfl⟩
        · rw [updateWorkflowStep_plain db now sid p s hf hstat h2]
          exact ⟨_, rfl⟩
    · intro hstat hemp
      rw [updateWorkflowStep_completed db now sid p s hf hstat hemp]
      exact ⟨_, rfl, rfl, by simp [applyPatch, hstat]⟩

/-- Witness for C10: re-submitting `completed` on the already-completed step
"s1" (which has no earlier sibling) succeeds again with a fresh completion
date and a projector re-run. -/
theorem claim_C10_status_agnostic_accept_witness :
    ∃ u,
      updateWorkflowStep dbMain 999 "s1" { status := some WorkflowStepStatus.completed } =
        (Except.ok u,
          updateProjectStatusIfNeeded
            { dbMain with steps := replaceById dbMain.steps "s1" u } stepA.projectId) ∧
      u.completionDate = some 999 ∧ u.status = WorkflowStepStatus.completed :=
  (((claim_C10_status_agnostic_accept dbMain 999 "s1"
        { status := some WorkflowStepStatus.completed }).2 stepA (by decide)).2.2) rfl (by decide)

/-- Looking a project up after the status write returns the row with the new
status. -/
theorem findProject_setProjectStatus (db : DB) (pid : String) (st : ProjectStatus) :
    findProject (setProjectStatus db pid st) pid =
      (findProject db pid).map (fun q => { q with status := st }) := by
  simp only [findProject, setProjectStatus]
  induction db.projects with
  | nil => rfl
  | cons q rest ih =>
    by_cases hq : q.id = pid
    · rw [List.map_cons, List.find?_cons_of_pos _ (by simp [hq]),
        List.find?_cons_of_pos _ (by simp [hq])]
      simp [hq]
    · rw [List.map_cons, List.find?_cons_of_neg _ (by simp [hq]),
        List.find?_cons_of_neg _ (by simp [hq])]
      exact ih

/-- Reduction of the projector when not every step of the project is
completed: the status is banded from the average completion percentage. -/
theorem updateProjectStatusIfNeeded_notAll (db : DB) (pid : String)
    (h : ¬ ∀ t ∈ stepsOf db pid, t.status = WorkflowStepStatus.completed) :
    updateProjectStatusIfNeeded db pid =
      setProjectStatus db pid
        (if (((((stepsOf db pid).map (fun t => t.completionPercentage)).sum : Int) : ℚ) /
              ((stepsOf db pid).length : ℚ)) ≥ 75 then ProjectStatus.FINALIZATION
         else if (((((stepsOf db pid).map (fun t => t.completionPercentage)).sum : Int) : ℚ) /
              ((stepsOf db pid).length : ℚ)) ≥ 50 then ProjectStatus.INTERNAL_REVIEW
         else if (((((stepsOf db pid).map (fun t => t.completionPercentage)).sum : Int) : ℚ) /
              ((stepsOf db pid).length : ℚ)) ≥ 25 then ProjectStatus.DRAFTING
         else if (((((stepsOf db pid).map (fun t => t.completionPercentage)).sum : Int) : ℚ) /
              ((stepsOf db pid).length : ℚ)) > 0 then ProjectStatus.ANALYSIS
         else ProjectStatus.PLANNING) := by
  have hall : (stepsOf db pid).all
      (fun t => decide (t.status = WorkflowStepStatus.completed)) = false := by
    rcases hb : (stepsOf db pid).all
        (fun t => decide (t.status = WorkflowStepStatus.completed)) with _ | _
    · rfl
    · exact absurd (fun t ht => by simpa using List.all_eq_true.mp hb t ht) h
  simp only [updateProjectStatusIfNeeded, hall, Bool.false_eq_true, if_false]

/-- C3: run on a project with at least one step, the status projector sets the
terminal `DELIVERED` state when every step is completed, and otherwise bands
the mean completion percentage: 0 gives the initial `PLANNING` stage, then
`ANALYSIS` below 25, `DRAFTING` below 50, `INTERNAL_REVIEW` below 75 and
`FINALIZATION` below 100. -/
theorem claim_C3_status_projector
    (db : DB) (pid : String) (pr : Project)
    (hpr : findProject db pid = some pr)
    (hne : stepsOf db pid ≠ []) :
    ((∀ t ∈ stepsOf db pid, t.status = WorkflowStepStatus.completed) →
      findProject (updateProjectStatusIfNeeded db pid) pid =
        some { pr with status := ProjectStatus.DELIVERED })
    ∧ (¬ (∀ t ∈ stepsOf db pid, t.status = WorkflowStepStatus.completed) →
        ∀ avg : ℚ,
          avg = ((((stepsOf db pid).map (fun t => t.completionPercentage)).sum : Int) : ℚ) /
              ((stepsOf db pid).length : ℚ) →
          (avg = 0 →
            findProject (updateProjectStatusIfNeeded db pid) pid =
              some { pr with status := ProjectStatus.PLANNING })
          ∧ (0 < avg → avg < 25 →
            findProject (updateProjectStatusIfNeeded db pid) pid =
              some { pr with status := ProjectStatus.ANALYSIS })
          ∧ (25 ≤ avg → avg < 50 →
            findProject (updateProjectStatusIfNeeded db pid) pid =
              some { pr with status := ProjectStatus.DRAFTING })
          ∧ (50 ≤ avg → avg < 75 →
            findProject (updateProjectStatusIfNeeded db pid) pid =
              some { pr with status := ProjectStatus.INTERNAL_REVIEW })
          ∧ (75 ≤ avg → avg < 100 →
            findProject (updateProjectStatusIfNeeded db pid) pid =
              some { pr with status := ProjectStatus.FINALIZATION })) := by
  constructor
  · intro hall
    rw [updateProjectStatusIfNeeded_allCompleted db pid hall, findProject_setProjectStatus, hpr]
    rfl
  · intro hnall avg havg
    rw [updateProjectStatusIfNeeded_notAll db pid hnall, findProject_setProjectStatus, hpr,
      ← havg]
    refine ⟨?_, ?_, ?_, ?_, ?_⟩
    · intro h0
      rw [if_neg (by intro hc; rw [ge_iff_le] at hc; linarith),
        if_neg (by intro hc; rw [ge_iff_le] at hc; linarith),
        if_neg (by intro hc; rw [ge_iff_le] at hc; linarith),
        if_neg (by intro hc; linarith)]
      rfl
    · intro h1 h2
      rw [if_neg (by intro hc; rw [ge_iff_le] at hc; linarith),
        if_neg (by intro hc; rw [ge_iff_le] at hc; linarith),
        if_neg (by intro hc; rw [ge_iff_le] at hc; linarith),
        if_pos h1]
      rfl
    · intro h1 h2
      rw [if_neg (by intro hc; rw [ge_iff_le] at hc; linarith),
        if_neg (by intro hc; rw [ge_iff_le] at hc; linarith),
        if_pos (by rw [ge_iff_le]; exact h1)]
      rfl
    · intro h1 h2
      rw [if_neg (by intro hc; rw [ge_iff_le] at hc; linarith),
        if_pos (by rw [ge_iff_le]; exact h1)]
      rfl
    · intro h1 h2
      rw [if_pos (by rw [ge_iff_le]; exact h1)]
      rfl

/-- Witness for C3 at the sample database, whose project "p1" has three
steps. -/
theorem claim_C3_status_projector_witness :
    ((∀ t ∈ stepsOf dbMain "p1", t.status = WorkflowStepStatus.completed) →
      findProject (updateProjectStatusIfNeeded dbMain "p1") "p1" =
        some { projA with status := ProjectStatus.DELIVERED })
    ∧ (¬ (∀ t ∈ stepsOf dbMain "p1", t.status = WorkflowStepStatus.completed) →
        ∀ avg : ℚ,
          avg = ((((stepsOf dbMain "p1").map (fun t => t.completionPercentage)).sum : Int) : ℚ) /
              ((stepsOf dbMain "p1").length : ℚ) →
          (avg = 0 →
            findProject (updateProjectStatusIfNeeded dbMain "p1") "p1" =
              some { projA with status := ProjectStatus.PLANNING })
          ∧ (0 < avg → avg < 25 →
            findProject (updateProjectStatusIfNeeded dbMain "p1") "p1" =
              some { projA with status := ProjectStatus.ANALYSIS })
          ∧ (25 ≤ avg → avg < 50 →
            findProject (updateProjectStatusIfNeeded dbMain "p1") "p1" =
              some { projA with status := ProjectStatus.DRAFTING })
          ∧ (50 ≤ avg → avg < 75 →
            findProject (updateProjectStatusIfNeeded dbMain "p1") "p1" =
              some { projA with status := ProjectStatus.INTERNAL_REVIEW })
          ∧ (75 ≤ avg → avg < 100 →
            findProject (updateProjectStatusIfNeeded dbMain "p1") "p1" =
              some { projA with status := ProjectStatus.FINALIZATION })) :=
  claim_C3_status_projector dbMain "p1" projA (by decide) (by decide)

/-- Sorting a nonempty step list yields a nonempty list. -/
theorem sortBySeq_isEmpty_false (l : List ProjectWorkflowStep) (h : l ≠ []) :
    (sortBySeq l).isEmpty = false := by
  rcases hq : sortBySeq l with _ | ⟨a, t⟩
  · exfalso
    apply h
    have hp := List.perm_insertionSort stepLe l
    rw [show List.insertionSort stepLe l = sortBySeq l from rfl, hq] at hp
    exact hp.symm.eq_nil
  · rfl

/-- Sorting a nonempty template list yields a nonempty list. -/
theorem sortTplBySeq_isEmpty_false (l : List WorkflowTemplate) (h : l ≠ []) :
    (sortTplBySeq l).isEmpty = false := by
  rcases hq : sortTplBySeq l with _ | ⟨a, t⟩
  · exfalso
    apply h
    have hp := List.perm_insertionSort tplLe l
    rw [show List.insertionSort tplLe l = sortTplBySeq l from rfl, hq] at hp
    exact hp.symm.eq_nil
  · rfl

/-- C4: on a project that already has step instances, `getProjectWorkflow`
returns the existing steps in sequence order and leaves the database
untouched, so a second call returns exactly the same steps: instantiation is
idempotent and never duplicates rows. -/
theorem claim_C4_idempotent_instantiation
    (db : DB) (pid : String) (pr : Project)
    (hpr : findProject db pid = some pr)
    (hne : stepsOf db pid ≠ []) :
    getProjectWorkflow db pid = (Except.ok (sortBySeq (stepsOf db pid)), db)
    ∧ ∀ w1 db1, getProjectWorkflow db pid = (Except.ok w1, db1) →
        db1 = db ∧ getProjectWorkflow db1 pid = (Except.ok w1, db1) := by
  have hse : (sortBySeq (stepsOf db pid)).isEmpty = false := sortBySeq_isEmpty_false _ hne
  have hmain : getProjectWorkflow db pid = (Except.ok (sortBySeq (stepsOf db pid)), db) := by
    simp only [getProjectWorkflow, hpr, hse, Bool.false_eq_true, if_false]
  refine ⟨hmain, ?_⟩
  intro w1 db1 heq
  rw [hmain] at heq
  have h1 := congrArg Prod.fst heq
  have h2 := congrArg Prod.snd heq
  simp only at h1 h2
  have hw : w1 = sortBySeq (stepsOf db pid) := by
    injection h1 with hh
    exact hh.symm
  subst hw
  subst h2
  exact ⟨rfl, hmain⟩

/-- Witness for C4 at the sample database, whose project already has three
step rows. -/
theorem claim_C4_idempotent_instantiation_witness :
    getProjectWorkflow dbMain "p1" = (Except.ok (sortBySeq (stepsOf dbMain "p1")), dbMain)
    ∧ ∀ w1 db1, getProjectWorkflow dbMain "p1" = (Except.ok w1, db1) →
        db1 = dbMain ∧ getProjectWorkflow db1 "p1" = (Except.ok w1, db1) :=
  claim_C4_idempotent_instantiation dbMain "p1" projA (by decide) (by decide)

/-- The sequence/name pairs of the instantiated rows are those of the
templates, in order. -/
theorem instantiateSteps_pairs (pid : String) :
    ∀ (ts : List WorkflowTemplate) (base : Nat),
      (instantiateSteps pid base ts).map (fun s => (s.stepSequence, s.stepName)) =
        ts.map (fun t => (t.stepSequence, t.stepName))
  | [], _ => rfl
  | t :: ts, base => by
    simp only [instantiateSteps, List.map_cons, instantiateSteps_pairs pid ts (base + 1)]
    rfl

/-- The sequence numbers of the instantiated rows are those of the templates,
in order. -/
theorem instantiateSteps_seqs (pid : String) :
    ∀ (ts : List WorkflowTemplate) (base : Nat),
      (instantiateSteps pid base ts).map (fun s => s.stepSequence) =
        ts.map (fun t => t.stepSequence)
  | [], _ => rfl
  | t :: ts, base => by
    simp only [instantiateSteps, List.map_cons, instantiateSteps_seqs pid ts (base + 1)]
    rfl

/-- Every instantiated row starts not started, at zero percent, unassigned and
undated, and belongs to the requested project. -/
theorem instantiateSteps_fields (pid : String) :
    ∀ (ts : List WorkflowTemplate) (base : Nat),
      ∀ s ∈ instantiateSteps pid base ts,
        s.status = WorkflowStepStatus.not_started ∧ s.completionPercentage = 0 ∧
        s.assignedTo = none ∧ s.startDate = none ∧ s.dueDate = none ∧
        s.completionDate = none ∧ s.projectId = pid
  | [], _ => by intro s hs; cases hs
  | t :: ts, base => by
    intro s hs
    rcases List.mem_cons.mp hs with rfl | hmem
    · exact ⟨rfl, rfl, rfl, rfl, rfl, rfl, rfl⟩
    · exact instantiateSteps_fields pid ts (base + 1) s hmem

/-- Instantiating from a sequence-sorted template list yields a
sequence-sorted step list. -/
theorem instantiateSteps_sorted (pid : String) (base : Nat) (ts : List WorkflowTemplate)
    (h : List.Sorted tplLe ts) : List.Sorted stepLe (instantiateSteps pid base ts) := by
  have h1 : List.Pairwise (fun a b : Int => a ≤ b) (ts.map (fun t => t.stepSequence)) :=
    (List.pairwise_map).mpr h
  rw [← instantiateSteps_seqs pid ts base] at h1
  exact (List.pairwise_map (f := fun s : ProjectWorkflowStep => s.stepSequence)).mp h1

/-- C5: on a project with no step instances and a nonempty template list for
its deliverable type, `getProjectWorkflow` creates exactly one step per
template, preserving sequence numbers and names, each initialized to
`not_started` at zero percent with no assignee or dates; the returned list is
ordered ascending by sequence, its sequence numbers coincide with the
templates' (hence are unique whenever the template sequence numbers are), and
exactly these rows are appended to the store. -/
theorem claim_C5_fresh_instantiation
    (db : DB) (pid : String) (pr : Project)
    (hpr : findProject db pid = some pr)
    (hzero : stepsOf db pid = [])
    (htne : templatesOf db pr.deliverableType ≠ []) :
    ∃ ws db1,
      getProjectWorkflow db pid = (Except.ok ws, db1) ∧
      db1.steps = db.steps ++ ws ∧
      ws.length = (sortTplBySeq (templatesOf db pr.deliverableType)).length ∧
      ws.map (fun s => (s.stepSequence, s.stepName)) =
        (sortTplBySeq (templatesOf db pr.deliverableType)).map
          (fun t => (t.stepSequence, t.stepName)) ∧
      (∀ s ∈ ws, s.status = WorkflowStepStatus.not_started ∧ s.completionPercentage = 0 ∧
        s.assignedTo = none ∧ s.startDate = none ∧ s.dueDate = none ∧
        s.completionDate = none) ∧
      List.Sorted stepLe ws ∧
      (((templatesOf db pr.deliverableType).map (fun t => t.stepSequence)).Nodup →
        (ws.map (fun s => s.stepSequence)).Nodup) := by
  have htplE : (sortTplBySeq (templatesOf db pr.deliverableType)).isEmpty = false :=
    sortTplBySeq_isEmpty_false _ htne
  have hstepE : (sortBySeq (stepsOf db pid)).isEmpty = true := by
    rw [hzero]
    rfl
  have hsorted : List.Sorted stepLe
      (instantiateSteps pid db.nextId (sortTplBySeq (templatesOf db pr.deliverableType))) :=
    instantiateSteps_sorted pid db.nextId _ (List.sorted_insertionSort tplLe _)
  have hfilter : ∀ base,
      (instantiateSteps pid base (sortTplBySeq (templatesOf db pr.deliverableType))).filter
        (fun t => decide (t.projectId = pid)) =
      instantiateSteps pid base (sortTplBySeq (templatesOf db pr.deliverableType)) := by
    intro base
    apply List.filter_eq_self.mpr
    intro a ha
    simp [(instantiateSteps_fields pid _ base a ha).2.2.2.2.2.2]
  have hsteps1 : stepsOf
      { db with
        steps := db.steps ++
          instantiateSteps pid db.nextId (sortTplBySeq (templatesOf db pr.deliverableType))
        nextId := db.nextId + (sortTplBySeq (templatesOf db pr.deliverableType)).length } pid =
      instantiateSteps pid db.nextId (sortTplBySeq (templatesOf db pr.deliverableType)) := by
    simp only [stepsOf, List.filter_append]
    rw [show db.steps.filter (fun t => decide (t.projectId = pid)) = stepsOf db pid from rfl,
      hzero, hfilter]
    rfl
  have hred : getProjectWorkflow db pid =
      (Except.ok
          (instantiateSteps pid db.nextId (sortTplBySeq (templatesOf db pr.deliverableType))),
        { db with
          steps := db.steps ++
            instantiateSteps pid db.nextId (sortTplBySeq (templatesOf db pr.deliverableType))
          nextId := db.nextId + (sortTplBySeq (templatesOf db pr.deliverableType)).length }) := by
    simp only [getProjectWorkflow, hpr, hstepE, htplE, Bool.false_eq_true, if_false, if_true]
    rw [hsteps1, show sortBySeq
        (instantiateSteps pid db.nextId (sortTplBySeq (templatesOf db pr.deliverableType))) =
        instantiateSteps pid db.nextId (sortTplBySeq (templatesOf db pr.deliverableType))
      from List.Sorted.insertionSort_eq hsorted]
  refine ⟨_, _, hred, rfl, ?_, instantiateSteps_pairs pid _ db.nextId,
    fun s hs => ⟨(instantiateSteps_fields pid _ db.nextId s hs).1,
      (instantiateSteps_fields pid _ db.nextId s hs).2.1,
      (instantiateSteps_fields pid _ db.nextId s hs).2.2.1,
      (instantiateSteps_fields pid _ db.nextId s hs).2.2.2.1,
      (instantiateSteps_fields pid _ db.nextId s hs).2.2.2.2.1,
      (instantiateSteps_fields pid _ db.nextId s hs).2.2.2.2.2.1⟩,
    hsorted, ?_⟩
  · have := congrArg List.length (instantiateSteps_seqs pid
      (sortTplBySeq (templatesOf db pr.deliverableType)) db.nextId)
    simpa using this
  · intro hnd
    rw [instantiateSteps_seqs pid _ db.nextId]
    have hperm : List.Perm (sortTplBySeq (templatesOf db pr.deliverableType))
        (templatesOf db pr.deliverableType) := List.perm_insertionSort tplLe _
    exact ((hperm.map (fun t => t.stepSequence)).nodup_iff).mpr hnd

/-- Witness for C5: instantiating the workflow of the fresh sample database
creates the three "Local File" steps. -/
theorem claim_C5_fresh_instantiation_witness :
    ∃ ws db1,
      getProjectWorkflow dbFresh "p1" = (Except.ok ws, db1) ∧
      db1.steps = dbFresh.steps ++ ws ∧
      ws.length = (sortTplBySeq (templatesOf dbFresh projA.deliverableType)).length ∧
      ws.map (fun s => (s.stepSequence, s.stepName)) =
        (sortTplBySeq (templatesOf dbFresh projA.deliverableType)).map
          (fun t => (t.stepSequence, t.stepName)) ∧
      (∀ s ∈ ws, s.status = WorkflowStepStatus.not_started ∧ s.completionPercentage = 0 ∧
        s.assignedTo = none ∧ s.startDate = none ∧ s.dueDate = none ∧
        s.completionDate = none) ∧
      List.Sorted stepLe ws ∧
      (((templatesOf dbFresh projA.deliverableType).map (fun t => t.stepSequence)).Nodup →
        (ws.map (fun s => s.stepSequence)).Nodup) :=
  claim_C5_fresh_instantiation dbFresh "p1" projA (by decide) rfl (by decide)

/-- C6 counterexample: with a project present but no workflow templates for
its deliverable type, the eager instantiation path `createProjectWorkflow`
returns successfully — it does not fail with `NotFoundError`, the
empty-template condition is silently tolerated. -/
theorem claim_C6_counterexample :
    createProjectWorkflow dbNoTpl "p1" "LOCAL_FILE" = (Except.ok (), dbNoTpl) ∧
    ∀ e : ApiError, (createProjectWorkflow dbNoTpl "p1" "LOCAL_FILE").1 ≠ Except.error e :=
  ⟨rfl, fun _ h => Except.noConfusion h⟩

/-- C6 (amended): the lazy instantiation path `getProjectWorkflow` fails with
`NotFoundError` when the project is absent and when the project's deliverable
type has no templates, creating no step rows in either case; the eager path
`createProjectWorkflow` instead silently succeeds on an empty template list,
also creating no rows. -/
theorem claim_C6_instantiation_failures
    (db : DB) (pid : String) (deliverableType : String) (pr : Project) :
    (findProject db pid = none →
      getProjectWorkflow db pid =
        (Except.error (ApiError.NotFoundError "Project not found"), db))
    ∧ (findProject db pid = some pr → stepsOf db pid = [] →
        templatesOf db pr.deliverableType = [] →
        getProjectWorkflow db pid =
          (Except.error
              (ApiError.NotFoundError
                ("No workflow templates found for deliverable type: " ++ pr.deliverableType)),
            db))
    ∧ (templatesOf db deliverableType = [] →
        createProjectWorkflow db pid deliverableType = (Except.ok (), db)) := by
  refine ⟨?_, ?_, ?_⟩
  · intro hnone
    simp [getProjectWorkflow, hnone]
  · intro hpr hzero htpl
    have hstepE : (sortBySeq (stepsOf db pid)).isEmpty = true := by
      rw [hzero]
      rfl
    have htplE : (sortTplBySeq (templatesOf db pr.deliverableType)).isEmpty = true := by
      rw [htpl]
      rfl
    simp only [getProjectWorkflow, hpr, hstepE, htplE, if_true]
  · intro htpl
    have htplE : (sortTplBySeq (templatesOf db deliverableType)).isEmpty = true := by
      rw [htpl]
      rfl
    simp only [createProjectWorkflow, htplE, if_true]

/-- Witness for the amended C6 at concrete databases with a missing project
and with an empty template catalog. -/
theorem claim_C6_instantiation_failures_witness :
    getProjectWorkflow dbNoTpl "p2" =
      (Except.error (ApiError.NotFoundError "Project not found"), dbNoTpl)
    ∧ getProjectWorkflow dbNoTpl "p1" =
      (Except.error
          (ApiError.NotFoundError
            ("No workflow templates found for deliverable type: " ++ projA.deliverableType)),
        dbNoTpl)
    ∧ createProjectWorkflow dbNoTpl "p1" "MASTER_FILE" = (Except.ok (), dbNoTpl) :=
  ⟨(claim_C6_instantiation_failures dbNoTpl "p2" "LOCAL_FILE" projA).1 (by decide),
    ((claim_C6_instantiation_failures dbNoTpl "p1" "LOCAL_FILE" projA).2.1 (by decide) rfl rfl),
    ((claim_C6_instantiation_failures dbNoTpl "p1" "MASTER_FILE" projA).2.2 rfl)⟩

/-- JavaScript rounding of zero is zero. -/
theorem jsRound_zero : jsRound 0 = 0 := by
  rw [jsRound, show (0 : ℚ) + 1 / 2 = 1 / 2 by norm_num]
  have hmem : ((1 : ℚ) / 2) ∈ Set.Ico (0 : ℚ) 1 := by
    rw [Set.mem_Ico]
    constructor <;> norm_num
  exact Int.floor_eq_zero_iff.mpr hmem

/-- The statistics variant of `getWorkflowProgress` returns an all-zero
summary — not an error — for a project without step instances. -/
theorem getWorkflowProgressSrc_empty (db : DB) (pid : String) (h : stepsOf db pid = []) :
    getWorkflowProgressSrc db pid =
      { totalSteps := 0, completedSteps := 0, inProgressSteps := 0, overallCompletion := 0,
        completionRate := 0 } := by
  simp only [getWorkflowProgressSrc, h]
  simp [jsRound_zero]

/-- C7 counterexample: on a project with zero step instances, the
`getWorkflowProgress` of `src/services/workflow.service.ts` returns a summary
with zero counts instead of failing with `NotFoundError`. -/
theorem claim_C7_counterexample :
    getWorkflowProgressSrc dbFresh "p1" =
      { totalSteps := 0, completedSteps := 0, inProgressSteps := 0, overallCompletion := 0,
        completionRate := 0 } :=
  getWorkflowProgressSrc_empty dbFresh "p1" rfl

/-- C7 (amended): the server copy's `getWorkflowProgress` fails with
`NotFoundError` on a project with zero step instances, while the duplicate in
`src/services/workflow.service.ts` instead returns a summary with zero counts
for such a project. -/
theorem claim_C7_progress_empty
    (db : DB) (now : Int) (pid : String) (h : stepsOf db pid = []) :
    getWorkflowProgress db now pid =
      Except.error (ApiError.NotFoundError "Workflow not found for this project")
    ∧ getWorkflowProgressSrc db pid =
      { totalSteps := 0, completedSteps := 0, inProgressSteps := 0, overallCompletion := 0,
        completionRate := 0 } := by
  have hE : (sortBySeq ([] : List ProjectWorkflowStep)).isEmpty = true := rfl
  exact ⟨by simp only [getWorkflowProgress, h, hE, if_true],
    getWorkflowProgressSrc_empty db pid h⟩

/-- Witness for the amended C7 at the fresh sample database. -/
theorem claim_C7_progress_empty_witness :
    getWorkflowProgress dbFresh 0 "p1" =
      Except.error (ApiError.NotFoundError "Workflow not found for this project")
    ∧ getWorkflowProgressSrc dbFresh "p1" =
      { totalSteps := 0, completedSteps := 0, inProgressSteps := 0, overallCompletion := 0,
        completionRate := 0 } :=
  claim_C7_progress_empty dbFresh 0 "p1" rfl

/-- C8: the estimated-completion heuristic of the server copy's
`getWorkflowProgress`.  With an `in_progress` step carrying both dates, the
planned duration is the ceiling of the date difference in whole days floored
at zero, `isOnTrack` compares the whole days elapsed since the start against
it, and the estimated completion date adds to the start the planned duration
plus the planned durations of all steps with a strictly greater sequence
number (steps missing either date contribute zero).  With no `in_progress`
step, or one without a start date, the estimate is absent and `isOnTrack` is
true. -/
theorem claim_C8_progress_estimation
    (db : DB) (now : Int) (pid : String)
    (hne : stepsOf db pid ≠ []) :
    ((sortBySeq (stepsOf db pid)).find?
        (fun s => decide (s.status = WorkflowStepStatus.in_progress)) = none →
      ∃ prog, getWorkflowProgress db now pid = Except.ok prog ∧
        prog.estimatedCompletionDate = none ∧ prog.isOnTrack = true)
    ∧ (∀ st, (sortBySeq (stepsOf db pid)).find?
          (fun s => decide (s.status = WorkflowStepStatus.in_progress)) = some st →
        (st.startDate = none →
          ∃ prog, getWorkflowProgress db now pid = Except.ok prog ∧
            prog.estimatedCompletionDate = none ∧ prog.isOnTrack = true)
        ∧ (∀ start due, st.startDate = some start → st.dueDate = some due →
          ∃ prog, getWorkflowProgress db now pid = Except.ok prog ∧
            prog.isOnTrack =
              decide ((now - start).fdiv msPerDay ≤ max 0 (ceilDivMs (due - start))) ∧
            prog.estimatedCompletionDate =
              some (start +
                (max 0 (ceilDivMs (due - start)) +
                  (((sortBySeq (stepsOf db pid)).filter
                      (fun s => decide (st.stepSequence < s.stepSequence))).map
                    (fun s =>
                      match s.startDate, s.dueDate with
                      | some a, some b => max 0 (ceilDivMs (b - a))
                      | _, _ => 0)).sum) * msPerDay))) := by
  have hE : (sortBySeq (stepsOf db pid)).isEmpty = false := sortBySeq_isEmpty_false _ hne
  refine ⟨?_, ?_⟩
  · intro hf
    simp only [getWorkflowProgress, hE, Bool.false_eq_true, if_false, hf]
    exact ⟨_, rfl, rfl, rfl⟩
  · intro st hf
    refine ⟨?_, ?_⟩
    · intro hsd
      simp only [getWorkflowProgress, hE, Bool.false_eq_true, if_false, hf, hsd]
      exact ⟨_, rfl, rfl, rfl⟩
    · intro start due hsd hdd
      simp only [getWorkflowProgress, hE, Bool.false_eq_true, if_false, hf, hsd, hdd]
      refine ⟨_, rfl, rfl, ?_⟩
      simp only [Option.some.injEq]
      ring

/-- Witness for C8: the in-progress step "s2" of the sample database starts at
day 0 and is due day 5, the later step "s3" spans three days, and the query is
made at day 3. -/
theorem claim_C8_progress_estimation_witness :
    ∃ prog, getWorkflowProgress dbMain 259200000 "p1" = Except.ok prog ∧
      prog.isOnTrack =
        decide (((259200000 : Int) - 0).fdiv msPerDay ≤ max 0 (ceilDivMs (432000000 - 0))) ∧
      prog.estimatedCompletionDate =
        some ((0 : Int) +
          (max 0 (ceilDivMs (432000000 - 0)) +
            (((sortBySeq (stepsOf dbMain "p1")).filter
                (fun s => decide (stepB.stepSequence < s.stepSequence))).map
              (fun s =>
                match s.startDate, s.dueDate with
                | some a, some b => max 0 (ceilDivMs (b - a))
                | _, _ => 0)).sum) * msPerDay) :=
  (((claim_C8_progress_estimation dbMain 259200000 "p1" (by decide)).2 stepB
      (by decide)).2) 0 432000000 rfl rfl
